import Mathlib

/-!
Verification of the knowledge_gae repository (src/model.py, src/gae/optimizer.py)
against its natural-language specification.

Tensors are shallowly embedded as functions `Fin n → ℝ` (vectors),
`Fin n → Fin m → ℝ` (matrices) or lists of rows where a shape is itself the
property under study.  Dropout, which in the source draws a random Bernoulli
mask, is embedded with the mask passed explicitly as an argument, together with
the deterministic `1/(1-p)` rescaling that `torch.nn.functional.dropout`
applies to the kept coordinates; the `training` flag of each call site is
reproduced exactly as written in the source.
-/

namespace KnowledgeGAE

noncomputable section

/-! ## Model factory (src/model.py, `get_model`, lines 16-26)

`get_model(args, data)` builds an error message enumerating the classes whose
`__module__` is `model` (the six classes defined in src/model.py, returned by
`inspect.getmembers` in alphabetical order), then does
`_class = getattr(module, args.model)`; on `AttributeError` it raises
`NotImplementedError(msg)`, otherwise it evaluates `_class(args, data)`.

`getattr` succeeds for every top-level binding of module `model`, not only for
the six defined classes: the imports bind `importlib`, `inspect`, `sys`,
`torch`, `torch_geometric` (via `import torch_geometric.nn.models.autoencoder`),
`nn`, `F`, `pyg`, `GCNConv`, `RGCNConv`, `Linear`, `Parameter`,
`GraphConvolution`, `GAE`, and the function `get_model` itself is bound too.
For such a name the factory never raises `NotImplementedError`; it calls the
attribute with `(args, data)` and the outcome is whatever that external call
does (embedded below as `externalCall`).

The call `_class(args, data)` always passes exactly two positional arguments.
Of the six defined classes, only `MLPEncoder.__init__(self, args, data)`
(line 92) accepts that arity with a configuration namespace and a data object:
  * `LinearClassifier.__init__(self, args)` (line 31) and
    `InnerProductDecoder.__init__(self, args)` (line 52) take one argument, so
    the call raises `TypeError` before the body runs;
  * `RGCNEncoder.__init__(self, num_nodes, hidden_channels, num_relations)`
    (line 68) takes three, so the call raises `TypeError` before the body runs;
  * `DistMultDecoder.__init__(self, num_relations, hidden_channels)` (line 117)
    binds `num_relations := args`, `hidden_channels := data` and then evaluates
    `torch.empty(num_relations, hidden_channels)` (line 119) on two non-integer
    objects, a `TypeError` inside the body;
  * `HetDistMultDecoder.__init__(self, num_relations, hidden_channels)`
    (line 147) likewise evaluates `num_relations + 1` (line 149) with
    `num_relations` bound to the configuration namespace, a `TypeError` inside
    the body.
In every failing case the exception propagates: `get_model` returns nothing,
so no partially constructed object is ever returned. -/

/-- The six classes defined in module `model` (src/model.py). -/
inductive ModelClass
  | DistMultDecoderC
  | HetDistMultDecoderC
  | InnerProductDecoderC
  | LinearClassifierC
  | MLPEncoderC
  | RGCNEncoderC
  deriving DecidableEq

/-- The Python class name of each module-defined class. -/
def className : ModelClass → String
  | .DistMultDecoderC => "DistMultDecoder"
  | .HetDistMultDecoderC => "HetDistMultDecoder"
  | .InnerProductDecoderC => "InnerProductDecoder"
  | .LinearClassifierC => "LinearClassifier"
  | .MLPEncoderC => "MLPEncoder"
  | .RGCNEncoderC => "RGCNEncoder"

/-- The list `inspect.getmembers` produces for the error message: the classes
with `__module__ == "model"`, in the alphabetical order `getmembers` returns. -/
def definedClassNames : List String :=
  ["DistMultDecoder", "HetDistMultDecoder", "InnerProductDecoder",
   "LinearClassifier", "MLPEncoder", "RGCNEncoder"]

/-- `getattr(module, name)` also succeeds on these: the other top-level
bindings of src/model.py (imports and the factory function itself). -/
def otherModuleAttrs : List String :=
  ["importlib", "inspect", "sys", "torch", "torch_geometric", "nn", "F",
   "pyg", "GCNConv", "RGCNConv", "Linear", "Parameter", "GraphConvolution",
   "GAE", "get_model"]

/-- The `NotImplementedError` message of src/model.py lines 19-20: the
requested name followed by the enumeration of the module-defined classes. -/
def notImplementedMsg (name : String) : String :=
  name ++ " is not implemented. Choose a model in the list: " ++
    String.intercalate ", " definedClassNames

/-- Reverse lookup of `className`, i.e. `getattr` restricted to the
module-defined classes. -/
def classOfName (name : String) : Option ModelClass :=
  if name = "DistMultDecoder" then some .DistMultDecoderC
  else if name = "HetDistMultDecoder" then some .HetDistMultDecoderC
  else if name = "InnerProductDecoder" then some .InnerProductDecoderC
  else if name = "LinearClassifier" then some .LinearClassifierC
  else if name = "MLPEncoder" then some .MLPEncoderC
  else if name = "RGCNEncoder" then some .RGCNEncoderC
  else none

/-- Number of positional parameters (besides `self`) of each defined class's
`__init__`, read off src/model.py lines 31, 52, 68, 92, 117, 147. -/
def initArity : ModelClass → Nat
  | .DistMultDecoderC => 2
  | .HetDistMultDecoderC => 2
  | .InnerProductDecoderC => 1
  | .LinearClassifierC => 1
  | .MLPEncoderC => 2
  | .RGCNEncoderC => 3

/-- Outcome of evaluating a class constructor on `(args, data)`. -/
inductive ConstructOutcome
  | instanceOf (c : ModelClass)
  | typeError
  deriving DecidableEq

/-- Outcome of the `__init__` body once `(args, data)` has been bound to its
two parameters (only meaningful when `initArity c = 2`).  `MLPEncoder`'s body
(lines 92-100) runs to completion on a configuration namespace and a data
object; `DistMultDecoder` evaluates `torch.empty(args, data)` (line 119) and
`HetDistMultDecoder` evaluates `args + 1` (line 149), both `TypeError`s on a
non-integer namespace object. -/
def initBody : ModelClass → ConstructOutcome
  | .MLPEncoderC => .instanceOf .MLPEncoderC
  | .DistMultDecoderC => .typeError
  | .HetDistMultDecoderC => .typeError
  | c => .instanceOf c

/-- `_class(args, data)`: a two-positional-argument call.  A signature of any
other arity raises `TypeError` before the body runs; otherwise the body
decides. -/
def callClass (c : ModelClass) : ConstructOutcome :=
  if initArity c = 2 then initBody c else .typeError

/-- Result of `get_model` (src/model.py lines 16-26). -/
inductive GetModelResult
  | instanceOf (c : ModelClass)
  | raisedTypeError
  | externalCall (name : String)
  | notImplemented (msg : String)
  deriving DecidableEq

/-- `get_model` of src/model.py lines 16-26: look the name up among the module
attributes; a module-defined class is called on `(args, data)`; any other
bound attribute is called too (outcome delegated to the external object,
embedded as `externalCall`); only an unbound name reaches the
`except AttributeError` branch and raises `NotImplementedError(msg)`. -/
def get_model (name : String) : GetModelResult :=
  match classOfName name with
  | some c =>
      match callClass c with
      | .instanceOf c2 => .instanceOf c2
      | .typeError => .raisedTypeError
  | none =>
      if name ∈ otherModuleAttrs then .externalCall name
      else .notImplemented (notImplementedMsg name)

/-- C1, counterexample.  The claim fails on the code in two independent ways:
`"LinearClassifier"` names a model class defined in the module, yet
`get_model` raises `TypeError` (its `__init__` takes one positional argument,
the factory passes two) rather than returning an instance of that class; and
`"torch"` matches no class, yet `get_model` does not raise the not-implemented
error — `getattr` finds the imported module and the factory calls it. -/
theorem get_model_claim_counterexample :
    classOfName "LinearClassifier" = some ModelClass.LinearClassifierC ∧
    get_model "LinearClassifier" = GetModelResult.raisedTypeError ∧
    classOfName "torch" = none ∧
    get_model "torch" = GetModelResult.externalCall "torch" := by
  refine ⟨rfl, ?_, rfl, ?_⟩ <;> decide

/-- C1, amended.  `get_model` returns an instance of the requested
module-defined class exactly for `MLPEncoder`, the only defined class whose
constructor accepts the factory's `(args, data)` call; for the five other
defined classes the construction raises a type error, so no partially
constructed object is returned; and the not-implemented error enumerating the
module-defined class names is raised exactly for names not bound as module
attributes, while other bound attributes are called externally. -/
theorem get_model_spec :
    get_model "MLPEncoder" = GetModelResult.instanceOf ModelClass.MLPEncoderC ∧
    (∀ c : ModelClass, c ≠ ModelClass.MLPEncoderC →
      get_model (className c) = GetModelResult.raisedTypeError) ∧
    (∀ name : String, classOfName name = none → name ∉ otherModuleAttrs →
      get_model name = GetModelResult.notImplemented (notImplementedMsg name)) := by
  refine ⟨by decide, ?_, ?_⟩
  · intro c hc
    cases c <;> first | rfl | exact absurd rfl hc
  · intro name h1 h2
    unfold get_model
    rw [h1]
    simp [h2]

/-- C1, witness for `get_model_spec`: its hypotheses are discharged at the
concrete class `DistMultDecoder` and the concrete unbound name `"Foo"`. -/
theorem get_model_spec_witness :
    get_model "DistMultDecoder" = GetModelResult.raisedTypeError ∧
    get_model "Foo" = GetModelResult.notImplemented (notImplementedMsg "Foo") := by
  exact ⟨get_model_spec.2.1 ModelClass.DistMultDecoderC (by decide),
    get_model_spec.2.2 "Foo" (by decide) (by decide)⟩

/-! ## Tensor primitives

`torch.nn.functional.dropout(x, p, training)`: when `training` is true each
coordinate is either zeroed (mask false) or rescaled by `1/(1-p)` (mask true);
when `training` is false it is the identity.  The random Bernoulli mask is an
explicit argument here.  `pyg.nn.Linear` / `torch.nn.Linear` is an affine map
`x ↦ W x + b`; `F.relu` is the elementwise positive part; `torch.sigmoid` /
`F.sigmoid` is the logistic function. -/

/-- `F.dropout` with explicit mask: identity when not training, otherwise each
kept coordinate is divided by `1 - p` and each dropped one is zeroed. -/
def dropout {ι : Type} (p : ℝ) (training : Bool) (mask : ι → Bool)
    (x : ι → ℝ) : ι → ℝ :=
  if training then (fun i => if mask i then x i / (1 - p) else 0) else x

/-- `F.relu`, the positive part. -/
def relu (x : ℝ) : ℝ := max x 0

/-- `torch.sigmoid`, the logistic function. -/
def sigmoid (x : ℝ) : ℝ := 1 / (1 + Real.exp (-x))

/-- A `Linear(din, dout)` layer: weight matrix and bias. -/
structure LinearLayer (din dout : ℕ) where
  weight : Fin dout → Fin din → ℝ
  bias : Fin dout → ℝ

/-- Application of a linear layer: `x ↦ W x + b`. -/
def applyLinear {din dout : ℕ} (l : LinearLayer din dout) (x : Fin din → ℝ) :
    Fin dout → ℝ :=
  fun o => (∑ i, l.weight o i * x i) + l.bias o

/-! ## LinearClassifier (src/model.py, lines 28-47)

Three linear layers `Linear(-1, h)`, `Linear(h, h)`, `Linear(h, C)` (the lazy
input dimension of the first layer is written `din` below).  `forward` applies
each non-final layer, then `F.relu`, then `F.dropout(z, self.dropout)` —
NOTE: this `F.dropout` call (line 44) passes no `training=` argument, and
`torch.nn.functional.dropout` defaults to `training=True`, so the dropout in
this module is applied regardless of the module's train/eval mode.  The final
layer is applied with no activation. -/

/-- A `LinearClassifier` with lazy input dimension `din`, hidden dimension
`h`, `C` classes and dropout rate `p`. -/
structure LinearClassifier (din h C : ℕ) where
  lin1 : LinearLayer din h
  lin2 : LinearLayer h h
  lin3 : LinearLayer h C
  p : ℝ

/-- `LinearClassifier.forward` (src/model.py lines 42-47).  `training` is the
module's train/eval mode and `mask1`, `mask2` the dropout masks of the two
`F.dropout` calls.  Faithful to line 44, the dropout is invoked with the
library default `training := true`, not with the module's `training` flag. -/
def LinearClassifier.forward {din h C : ℕ} (m : LinearClassifier din h C)
    (training : Bool) (mask1 mask2 : Fin h → Bool) (z : Fin din → ℝ) :
    Fin C → ℝ :=
  let _ := training
  let z1 := dropout m.p true mask1 (fun i => relu (applyLinear m.lin1 z i))
  let z2 := dropout m.p true mask2 (fun i => relu (applyLinear m.lin2 z1 i))
  applyLinear m.lin3 z2

/-- The dropout-free composition of the classifier's layers: what `forward`
in evaluation mode would compute if its dropout were the identity there. -/
def LinearClassifier.forwardNoDropout {din h C : ℕ}
    (m : LinearClassifier din h C) (z : Fin din → ℝ) : Fin C → ℝ :=
  let z1 := fun i => relu (applyLinear m.lin1 z i)
  let z2 := fun i => relu (applyLinear m.lin2 z1 i)
  applyLinear m.lin3 z2

/-- A concrete 1-dimensional classifier: every layer is the identity
(`weight = 1`, `bias = 0`) and the dropout rate is `1/2`. -/
def idClassifier : LinearClassifier 1 1 1 :=
  ⟨⟨fun _ _ => 1, fun _ => 0⟩, ⟨fun _ _ => 1, fun _ => 0⟩,
   ⟨fun _ _ => 1, fun _ => 0⟩, 1 / 2⟩

/-- C3, failing input.  With the module in evaluation mode
(`training = false`), dropout rate `1/2` and a mask that keeps every
coordinate, `LinearClassifier.forward` on input `1` returns `4`: each of the
two `F.dropout` calls still rescales by `1/(1 - 1/2) = 2` because line 44 of
src/model.py omits `training=self.training` and the library default is
`training=True`.  The dropout-free composition of the layers returns `1`, so
an evaluation-mode forward pass is NOT the dropout-free function and the
claimed invariant fails on this component. -/
theorem linearClassifier_dropout_active_in_eval :
    LinearClassifier.forward idClassifier false (fun _ => true) (fun _ => true)
      (fun _ => 1) 0 = 4 ∧
    LinearClassifier.forwardNoDropout idClassifier (fun _ => 1) 0 = 1 := by
  constructor <;>
    norm_num [LinearClassifier.forward, LinearClassifier.forwardNoDropout,
      idClassifier, dropout, relu, applyLinear, Fin.sum_univ_one]

/-! ## InnerProductDecoder (src/model.py, lines 50-65)

`forward(z)` applies `F.dropout(z, self.dropout, training=self.training)`
(this call DOES pass the module's mode), forms
`adj = sigmoid(z @ z.T)`, replicates it along a third axis of size
`num_classes` (`adj.unsqueeze(2).repeat(1, 1, self.num_classes)`), feeds the
result through the `LinearClassifier` along the last axis, and returns
`F.sigmoid` of the classifier output. -/

/-- `InnerProductDecoder.forward` (src/model.py lines 60-65) on an `n × d`
embedding matrix `z`, with dropout rate `p`, module mode `training`, the
input dropout mask `maskZ`, the classifier `clf` (whose lazy input dimension
is the channel count `C`) and the classifier's per-position dropout masks. -/
def InnerProductDecoder.forward {n d h C : ℕ} (p : ℝ) (training : Bool)
    (clf : LinearClassifier C h C) (maskZ : Fin n → Fin d → Bool)
    (mask1 mask2 : Fin n → Fin n → Fin h → Bool) (z : Fin n → Fin d → ℝ) :
    Fin n → Fin n → Fin C → ℝ :=
  let zDrop := fun i => dropout p training (maskZ i) (z i)
  let adj := fun i j => sigmoid (∑ k, zDrop i k * zDrop j k)
  let adj3D := fun i j (_ : Fin C) => adj i j
  fun i j c =>
    sigmoid (LinearClassifier.forward clf training (mask1 i j) (mask2 i j)
      (adj3D i j) c)

/-- The logistic function takes values in the closed unit interval. -/
theorem sigmoid_mem_unitInterval (x : ℝ) : 0 ≤ sigmoid x ∧ sigmoid x ≤ 1 := by
  have hpos : (0 : ℝ) < 1 + Real.exp (-x) := by positivity
  constructor
  · exact le_of_lt (div_pos one_pos hpos)
  · rw [sigmoid, div_le_one hpos]
    nlinarith [Real.exp_pos (-x)]

/-- C7.  Every entry of `InnerProductDecoder.forward` lies in `[0, 1]`, for
every embedding matrix, every parameter setting, both modes and all dropout
masks: the last operation of the forward pass is the logistic function. -/
theorem innerProductDecoder_output_in_unitInterval {n d h C : ℕ} (p : ℝ)
    (training : Bool) (clf : LinearClassifier C h C)
    (maskZ : Fin n → Fin d → Bool) (mask1 mask2 : Fin n → Fin n → Fin h → Bool)
    (z : Fin n → Fin d → ℝ) (i j : Fin n) (c : Fin C) :
    0 ≤ InnerProductDecoder.forward p training clf maskZ mask1 mask2 z i j c ∧
    InnerProductDecoder.forward p training clf maskZ mask1 mask2 z i j c ≤ 1 :=
  sigmoid_mem_unitInterval _

/-! ## DistMultDecoder (src/model.py, lines 116-132)

`forward(z, edge_index, edge_type)` gathers `z_src = z[edge_index[0]]`,
`z_dst = z[edge_index[1]]` and `rel = rel_emb[edge_type]` and returns
`torch.sum(z_src * rel * z_dst, dim=1)`: each edge `(s, d)` with relation `r`
is scored `∑ i, z s i * rel_emb r i * z d i`. -/

/-- The per-edge DistMult score of src/model.py line 132: the sum of the
elementwise triple product of source embedding, relation embedding and
destination embedding.  Node and relation indices are gathered from arbitrary
integer index tensors, so they range over `ℕ` here. -/
def distMultScore {hc : ℕ} (z : ℕ → Fin hc → ℝ) (relEmb : ℕ → Fin hc → ℝ)
    (src dst r : ℕ) : ℝ :=
  ∑ i, z src i * relEmb r i * z dst i

/-- `DistMultDecoder.forward` (src/model.py lines 129-132): one score per
edge of the (already zipped) edge list. -/
def DistMultDecoder.forward {hc : ℕ} (z : ℕ → Fin hc → ℝ)
    (relEmb : ℕ → Fin hc → ℝ) (edges : List ((ℕ × ℕ) × ℕ)) : List ℝ :=
  edges.map (fun e => distMultScore z relEmb e.1.1 e.1.2 e.2)

/-- A concrete embedding matrix: node `0 ↦ (1, 2)`, node `1 ↦ (3, 4)`. -/
def zPair : ℕ → Fin 2 → ℝ :=
  fun s i => if s = 0 then (if i = 0 then 1 else 2) else (if i = 0 then 3 else 4)

/-- A concrete relation embedding `(5, 6)` for relation `0`: its two
coordinates differ, so it is not symmetric in any coordinate-exchange sense. -/
def relPair : ℕ → Fin 2 → ℝ := fun _ i => if i = 0 then 5 else 6

/-- C4, counterexample.  The claim asserts that with a relation embedding
that is not symmetric the scores of `(a→b)` and `(b→a)` differ; here the
relation embedding `(5, 6)` has two distinct coordinates, yet the scores of
`(0→1)` and `(1→0)` are both `1*5*3 + 2*6*4 = 63`.  The DistMult bilinear
form of line 132 is unconditionally symmetric in source and destination. -/
theorem distMult_swap_counterexample :
    relPair 0 0 ≠ relPair 0 1 ∧
    distMultScore zPair relPair 0 1 0 = 63 ∧
    distMultScore zPair relPair 1 0 0 = 63 := by
  refine ⟨?_, ?_, ?_⟩ <;>
    norm_num [distMultScore, zPair, relPair, Fin.sum_univ_two]

/-- C4, amended.  The DistMult score is symmetric under the simultaneous swap
of source and destination embeddings for EVERY relation embedding: scores of
`(a→b)` and `(b→a)` under the same relation always coincide, because the
elementwise triple product is commutative. -/
theorem distMult_score_symm {hc : ℕ} (z : ℕ → Fin hc → ℝ)
    (relEmb : ℕ → Fin hc → ℝ) (a b r : ℕ) :
    distMultScore z relEmb a b r = distMultScore z relEmb b a r := by
  unfold distMultScore
  exact Finset.sum_congr rfl (fun i _ => by ring)

/-! ## HetDistMultDecoder (src/model.py, lines 135-158)

`rel_emb` is a `hidden_channels × (num_relations + 1)` parameter (line 143).
`forward(z, batch)` gathers the endpoint embeddings of `batch.pos_edge_index`,
forms `(z_src * z_dst) @ rel_emb` — one row per positive edge, one column per
column of `rel_emb` — and, when the batch has a `neg_edge_index` attribute,
concatenates the rows obtained the same way from the negative edges.  The row
count is the interesting shape here, so the output is embedded as a list of
row vectors (lists), while `z` and `rel_emb` keep their fixed widths as
function types. -/

/-- One output row of `HetDistMultDecoder.forward`: the edge's Hadamard
product `z_src * z_dst` multiplied into the `hc × (R + 1)` relation matrix,
giving `R + 1` scores. -/
def hetScore {hc R : ℕ} (z : ℕ → Fin hc → ℝ) (relEmb : Fin hc → Fin (R + 1) → ℝ)
    (e : ℕ × ℕ) : List ℝ :=
  List.ofFn (fun j : Fin (R + 1) => ∑ i, z e.1 i * z e.2 i * relEmb i j)

/-- `HetDistMultDecoder.forward` (src/model.py lines 152-158): score the
positive edges and, when a negative edge index is present on the batch
(`hasattr(batch, 'neg_edge_index')`, embedded as `neg ≠ none`), append the
scores of the negative edges. -/
def HetDistMultDecoder.forward {hc R : ℕ} (z : ℕ → Fin hc → ℝ)
    (relEmb : Fin hc → Fin (R + 1) → ℝ) (pos : List (ℕ × ℕ))
    (neg : Option (List (ℕ × ℕ))) : List (List ℝ) :=
  let out := pos.map (hetScore z relEmb)
  match neg with
  | some negEdges => out ++ negEdges.map (hetScore z relEmb)
  | none => out

/-- The number of negative edges carried by the optional negative edge index:
zero when the attribute is absent. -/
def negEdgeCount (neg : Option (List (ℕ × ℕ))) : ℕ :=
  match neg with
  | some negEdges => negEdges.length
  | none => 0

/-- C8.  The score matrix of `HetDistMultDecoder.forward` has one row per
positive edge plus, when a negative edge index is present, one row per
negative edge; and every row has exactly `num_relations + 1` entries, the
column count of the `rel_emb` parameter. -/
theorem hetDistMult_shape {hc R : ℕ} (z : ℕ → Fin hc → ℝ)
    (relEmb : Fin hc → Fin (R + 1) → ℝ) (pos : List (ℕ × ℕ))
    (neg : Option (List (ℕ × ℕ))) :
    (HetDistMultDecoder.forward z relEmb pos neg).length =
      pos.length + negEdgeCount neg ∧
    ∀ row ∈ HetDistMultDecoder.forward z relEmb pos neg,
      row.length = R + 1 := by
  constructor
  · cases neg <;>
      simp [HetDistMultDecoder.forward, negEdgeCount]
  · intro row hrow
    have hscore : ∀ e : ℕ × ℕ, (hetScore z relEmb e).length = R + 1 := by
      intro e
      simp [hetScore]
    cases neg with
    | none =>
        simp only [HetDistMultDecoder.forward, List.mem_map] at hrow
        obtain ⟨e, _, he⟩ := hrow
        rw [← he]
        exact hscore e
    | some negEdges =>
        simp only [HetDistMultDecoder.forward, List.mem_append,
          List.mem_map] at hrow
        rcases hrow with ⟨e, _, he⟩ | ⟨e, _, he⟩ <;> rw [← he] <;>
          exact hscore e

/-- All-ones embeddings and relation matrix used to instantiate
`hetDistMult_shape` at a concrete input. -/
def zOnes : ℕ → Fin 1 → ℝ := fun _ _ => 1

/-- All-ones `1 × 2` relation parameter (`num_relations = 1`, one reserved
column). -/
def relOnes : Fin 1 → Fin 2 → ℝ := fun _ _ => 1

/-- C8, witness: `hetDistMult_shape` applied to one positive edge `(0, 1)`
and one negative edge `(1, 0)` with `num_relations = 1`; its membership
hypothesis is discharged at the concrete first row. -/
theorem hetDistMult_shape_witness :
    (HetDistMultDecoder.forward zOnes relOnes [(0, 1)] (some [(1, 0)])).length
      = 2 ∧
    (hetScore zOnes relOnes (0, 1)).length = 2 := by
  constructor
  · exact (hetDistMult_shape zOnes relOnes [(0, 1)] (some [(1, 0)])).1
  · exact (hetDistMult_shape zOnes relOnes [(0, 1)] (some [(1, 0)])).2
      (hetScore zOnes relOnes (0, 1))
      (by simp [HetDistMultDecoder.forward])

/-! ## loss_function (src/gae/optimizer.py, lines 7-19)

```
labels = labels.unsqueeze(2).repeat(1, 1, 10)
cost = norm * F.binary_cross_entropy_with_logits(preds, labels,
                                                 pos_weight=FloatTensor([pos_weight]))
KLD = -0.5 / n_nodes * torch.mean(torch.sum(
    1 + 2 * logvar - mu.pow(2) - logvar.exp().pow(2), 1))
return cost + KLD
```

`binary_cross_entropy_with_logits` with `pos_weight = pw` and the default
mean reduction computes the mean over all entries of
`-(pw * y * log σ(x) + (1 - y) * log (1 - σ(x)))` where `σ` is the logistic
function.  `torch.sum(·, 1)` of an `n × d` tensor is the vector of row sums
and `torch.mean` of that vector divides the total by `n`. -/

/-- The hardcoded channel count `10` of the label broadcast on line 10 of
src/gae/optimizer.py (`repeat(1, 1, 10)`).  It is a literal of the
implementation; the configured `args.num_classes` does not appear in
`loss_function` at all. -/
def numLossChannels : ℕ := 10

/-- `labels.unsqueeze(2).repeat(1, 1, 10)` (src/gae/optimizer.py line 10):
the `n × n` binary label matrix replicated across the ten class channels. -/
def broadcastLabels {n : ℕ} (labels : Fin n → Fin n → ℝ) :
    Fin n → Fin n → Fin numLossChannels → ℝ :=
  fun i j _ => labels i j

/-- One entry of `F.binary_cross_entropy_with_logits` with positive-class
weight `pw`: logit `x`, target `y`. -/
def bceWithLogitsElem (pw x y : ℝ) : ℝ :=
  -(pw * y * Real.log (sigmoid x) + (1 - y) * Real.log (1 - sigmoid x))

/-- `F.binary_cross_entropy_with_logits` with the default mean reduction on
`n × n × 10` tensors. -/
def bceWithLogitsMean {n : ℕ} (pw : ℝ)
    (preds target : Fin n → Fin n → Fin numLossChannels → ℝ) : ℝ :=
  (∑ i, ∑ j, ∑ c, bceWithLogitsElem pw (preds i j c) (target i j c)) /
    ((n : ℝ) * (n : ℝ) * (numLossChannels : ℝ))

/-- The variable `KLD` of src/gae/optimizer.py lines 17-18:
`-0.5 / n_nodes * torch.mean(torch.sum(1 + 2*logvar - mu.pow(2)
- logvar.exp().pow(2), 1))`, with `mu` and `logvar` of shape `n × d` and the
separately passed node count `n_nodes`. -/
def KLDterm {n d : ℕ} (mu logvar : Fin n → Fin d → ℝ) (n_nodes : ℕ) : ℝ :=
  -0.5 / (n_nodes : ℝ) *
    ((∑ i, ∑ j, (1 + 2 * logvar i j - (mu i j) ^ 2 -
      (Real.exp (logvar i j)) ^ 2)) / (n : ℝ))

/-- `loss_function` (src/gae/optimizer.py lines 7-19): the weighted
reconstruction cost on the broadcast labels plus the `KLD` variable. -/
def loss_function {n d : ℕ} (preds : Fin n → Fin n → Fin numLossChannels → ℝ)
    (labels : Fin n → Fin n → ℝ) (mu logvar : Fin n → Fin d → ℝ)
    (n_nodes : ℕ) (norm pos_weight : ℝ) : ℝ :=
  norm * bceWithLogitsMean pos_weight preds (broadcastLabels labels) +
    KLDterm mu logvar n_nodes

set_option linter.unusedVariables false in
/-- C5.  The labels entering the weighted binary cross-entropy of
`loss_function` are the input matrix replicated across
`numLossChannels = 10` channels — every channel holds the same binary label —
and that channel count is a literal of the implementation: it is the same for
every configured number of classes (the quantified `num_classes` below does
not influence it, matching the absence of `args.num_classes` from
src/gae/optimizer.py). -/
theorem loss_labels_broadcast_fixed_channels :
    ∀ (num_classes n : ℕ) (labels : Fin n → Fin n → ℝ) (i j : Fin n)
      (c : Fin numLossChannels),
      numLossChannels = 10 ∧ broadcastLabels labels i j c = labels i j :=
  fun _ _ _ _ _ _ => ⟨rfl, rfl⟩

/-- The KL term as the claim words it: `-0.5` times the mean over nodes of
the per-node sums of `1 + logvar - mu^2 - exp(logvar)` (the closed-form KL
divergence from a standard normal prior when `logvar` is the log-variance). -/
def claimedKL {n d : ℕ} (mu logvar : Fin n → Fin d → ℝ) : ℝ :=
  -(1 / 2) *
    ((∑ i, ∑ j, (1 + logvar i j - (mu i j) ^ 2 - Real.exp (logvar i j))) /
      (n : ℝ))

/-- A `2 × 1` mean tensor with both entries `2`. -/
def muTwo : Fin 2 → Fin 1 → ℝ := fun _ _ => 2

/-- A `2 × 1` log-variance tensor with both entries `0`. -/
def logvarZero : Fin 2 → Fin 1 → ℝ := fun _ _ => 0

/-- C2, counterexample.  With `mu ≡ 2`, `logvar ≡ 0` over two nodes and one
latent dimension and `n_nodes = 2`, the `KLD` variable of `loss_function`
evaluates to `1` while the claim's formula evaluates to `2`: the code divides
by `n_nodes` a second time on top of the `torch.mean` that already averages
over nodes (at `logvar = 0` the two formulas' summands agree, isolating the
extra division). -/
theorem KL_term_counterexample :
    KLDterm muTwo logvarZero 2 = 1 ∧ claimedKL muTwo logvarZero = 2 ∧
    KLDterm muTwo logvarZero 2 ≠ claimedKL muTwo logvarZero := by
  have h1 : KLDterm muTwo logvarZero 2 = 1 := by
    norm_num [KLDterm, muTwo, logvarZero, Fin.sum_univ_two, Fin.sum_univ_one,
      Real.exp_zero]
  have h2 : claimedKL muTwo logvarZero = 2 := by
    norm_num [claimedKL, muTwo, logvarZero, Fin.sum_univ_two, Fin.sum_univ_one,
      Real.exp_zero]
  refine ⟨h1, h2, ?_⟩
  rw [h1, h2]
  norm_num

/-- The reconstruction cost exactly as the claim words it: the normalization
factor times the mean weighted binary cross-entropy of the logits against the
channel-replicated labels. -/
def specCost {n : ℕ} (norm pw : ℝ) (preds : Fin n → Fin n → Fin numLossChannels → ℝ)
    (labels : Fin n → Fin n → ℝ) : ℝ :=
  norm * ((∑ i, ∑ j, ∑ c, bceWithLogitsElem pw (preds i j c) (labels i j)) /
    ((n : ℝ) * (n : ℝ) * 10))

/-- The KL term of the amended claim, written independently of `KLDterm`:
`-1/2 · 1/(n_nodes · n)` times the total over nodes and latent dimensions of
`1 + 2·logvar - mu² - exp(2·logvar)`. -/
def specAmendedKL {n d : ℕ} (mu logvar : Fin n → Fin d → ℝ) (n_nodes : ℕ) : ℝ :=
  -(1 / 2) * (1 / ((n_nodes : ℝ) * (n : ℝ))) *
    ∑ i, ∑ j, (1 + 2 * logvar i j - (mu i j) ^ 2 - Real.exp (2 * logvar i j))

/-- C2, amended.  `loss_function` returns the weighted reconstruction cost
plus a KL-shaped term equal to `-1/2 · 1/(n_nodes · n)` times the total of
`1 + 2·logvar - mu² - exp(2·logvar)` over all entries: relative to the claim,
the summand uses `2·logvar` and `exp(logvar)²( = exp(2·logvar))` in place of
`logvar` and `exp(logvar)`, and the node average carries an additional
`1/n_nodes` factor. -/
theorem loss_function_decomposition {n d : ℕ}
    (preds : Fin n → Fin n → Fin numLossChannels → ℝ)
    (labels : Fin n → Fin n → ℝ) (mu logvar : Fin n → Fin d → ℝ)
    (n_nodes : ℕ) (norm pos_weight : ℝ) :
    loss_function preds labels mu logvar n_nodes norm pos_weight =
      specCost norm pos_weight preds labels + specAmendedKL mu logvar n_nodes := by
  unfold loss_function specCost specAmendedKL bceWithLogitsMean KLDterm
    broadcastLabels numLossChannels
  have hexp : ∀ i j, (1 + 2 * logvar i j - (mu i j) ^ 2 -
      (Real.exp (logvar i j)) ^ 2) =
      (1 + 2 * logvar i j - (mu i j) ^ 2 - Real.exp (2 * logvar i j)) := by
    intro i j
    rw [two_mul (logvar i j), Real.exp_add]
    ring
  rw [Finset.sum_congr rfl (fun i _ => Finset.sum_congr rfl (fun j _ => hexp i j))]
  push_cast
  simp only [div_eq_mul_inv, mul_inv]
  ring

/-- All-zero `4 × 4 × 10` prediction logits. -/
def predsZero : Fin 4 → Fin 4 → Fin numLossChannels → ℝ := fun _ _ _ => 0

/-- All-zero `4 × 4` labels. -/
def labelsZero : Fin 4 → Fin 4 → ℝ := fun _ _ => 0

/-- All-zero `4 × 1` mean tensor. -/
def muZero : Fin 4 → Fin 1 → ℝ := fun _ _ => 0

/-- All-zero `4 × 1` log-variance tensor. -/
def logvarZero4 : Fin 4 → Fin 1 → ℝ := fun _ _ => 0

/-- The logistic function at `0` is `1/2`. -/
theorem sigmoid_zero : sigmoid 0 = 1 / 2 := by
  norm_num [sigmoid, Real.exp_zero]

/-- A zero-weight-zero-target cross-entropy entry at logit `0` is `log 2`. -/
theorem bceElem_zero : bceWithLogitsElem 1 0 0 = Real.log 2 := by
  rw [bceWithLogitsElem, sigmoid_zero]
  norm_num
  rw [one_div, Real.log_inv, neg_neg]

/-- C6.  With `n_nodes = 4`, `norm = 1`, `pos_weight = 1`, all-zero logits,
all-zero labels, zero mean and zero log-variance, `loss_function` returns
exactly the binary-cross-entropy-with-logits baseline `log 2`, and the KL
term is zero. -/
theorem loss_function_baseline :
    loss_function predsZero labelsZero muZero logvarZero4 4 1 1 = Real.log 2 ∧
    KLDterm muZero logvarZero4 4 = 0 := by
  have hKL : KLDterm muZero logvarZero4 4 = 0 := by
    norm_num [KLDterm, muZero, logvarZero4, Real.exp_zero,
      Fin.sum_univ_four, Fin.sum_univ_one]
  refine ⟨?_, hKL⟩
  rw [loss_function, hKL]
  rw [show bceWithLogitsMean 1 predsZero (broadcastLabels labelsZero) =
      Real.log 2 from ?_]
  · ring
  · unfold bceWithLogitsMean
    have hentry : ∀ (i j : Fin 4) (c : Fin numLossChannels),
        bceWithLogitsElem 1 (predsZero i j c)
          (broadcastLabels labelsZero i j c) = Real.log 2 := by
      intro i j c
      rw [show predsZero i j c = 0 from rfl,
        show broadcastLabels labelsZero i j c = 0 from rfl]
      exact bceElem_zero
    rw [Finset.sum_congr rfl (fun i _ => Finset.sum_congr rfl
      (fun j _ => Finset.sum_congr rfl (fun c _ => hentry i j c)))]
    simp [Finset.sum_const, numLossChannels]
    ring

/-- C9.  `loss_function` is invariant under any permutation of the node
indices applied simultaneously to the rows and columns of the predictions,
to the rows and columns of the labels, and to the rows of the mean and
log-variance tensors. -/
theorem loss_function_perm_invariant {n d : ℕ}
    (preds : Fin n → Fin n → Fin numLossChannels → ℝ)
    (labels : Fin n → Fin n → ℝ) (mu logvar : Fin n → Fin d → ℝ)
    (n_nodes : ℕ) (norm pos_weight : ℝ) (σ : Equiv.Perm (Fin n)) :
    loss_function (fun i j c => preds (σ i) (σ j) c)
      (fun i j => labels (σ i) (σ j)) (fun i j => mu (σ i) j)
      (fun i j => logvar (σ i) j) n_nodes norm pos_weight =
    loss_function preds labels mu logvar n_nodes norm pos_weight := by
  unfold loss_function bceWithLogitsMean KLDterm broadcastLabels
  have hbce : (∑ i, ∑ j, ∑ c, bceWithLogitsElem pos_weight
        (preds (σ i) (σ j) c) (labels (σ i) (σ j))) =
      ∑ i, ∑ j, ∑ c, bceWithLogitsElem pos_weight (preds i j c)
        (labels i j) := by
    rw [Equiv.sum_comp σ (fun i => ∑ j, ∑ c, bceWithLogitsElem pos_weight
      (preds i (σ j) c) (labels i (σ j)))]
    exact Finset.sum_congr rfl (fun i _ => Equiv.sum_comp σ
      (fun j => ∑ c, bceWithLogitsElem pos_weight (preds i j c) (labels i j)))
  have hkl : (∑ i, ∑ j, (1 + 2 * logvar (σ i) j - (mu (σ i) j) ^ 2 -
        (Real.exp (logvar (σ i) j)) ^ 2)) =
      ∑ i, ∑ j, (1 + 2 * logvar i j - (mu i j) ^ 2 -
        (Real.exp (logvar i j)) ^ 2) :=
    Equiv.sum_comp σ (fun i => ∑ j, (1 + 2 * logvar i j - (mu i j) ^ 2 -
      (Real.exp (logvar i j)) ^ 2))
  rw [hbce, hkl]

/-! ## MLPEncoder (src/model.py, lines 91-112)

`__init__(self, args, data)`:
```
if data.x is None:
    self.featureless = True
    self.node_embeddings = Parameter(torch.empty(data.num_nodes, args.hidden_dim))
```
has no `else` branch, so when `data.x` is not `None` neither `featureless`
nor `node_embeddings` is ever assigned.  `forward(self, batch)` begins with
`if self.featureless:`; on an `nn.Module`, reading an attribute that was
never assigned raises `AttributeError` (via `nn.Module.__getattr__`), so the
forward pass fails before any layer runs.  Unset attributes are embedded as
`none`; the uninitialized `torch.empty` parameter values are the explicit
argument `embInit`.  On the featureless path the lazy `Linear(-1, hidden)`
receives inputs of the embedding width, written `din` below (`args.hidden_dim`
in the source). -/

/-- The graph-batch object as the encoder sees it: an optional `B × din`
feature matrix `x` and the node identifiers indexing the embedding table. -/
structure DataBatch (B nN din : ℕ) where
  x : Option (Fin B → Fin din → ℝ)
  node_ids : Fin B → Fin nN

/-- Python exceptions that `MLPEncoder.forward` can surface. -/
inductive PyError
  | attributeError
  | typeError
  deriving DecidableEq

/-- The attribute state of a constructed `MLPEncoder`: `none` fields model
attributes that were never assigned. -/
structure MLPEncoder (nN din h : ℕ) where
  featureless : Option Bool
  node_embeddings : Option (Fin nN → Fin din → ℝ)
  p : ℝ
  linear1 : LinearLayer din h
  linear2 : LinearLayer h h
  linear3 : LinearLayer h h

/-- `MLPEncoder.__init__` (src/model.py lines 92-100): `featureless` and
`node_embeddings` are assigned only on the `data.x is None` branch. -/
def MLPEncoder.init {B nN din h : ℕ} (p : ℝ) (data : DataBatch B nN din)
    (embInit : Fin nN → Fin din → ℝ) (l1 : LinearLayer din h)
    (l2 l3 : LinearLayer h h) : MLPEncoder nN din h :=
  match data.x with
  | none => ⟨some true, some embInit, p, l1, l2, l3⟩
  | some _ => ⟨none, none, p, l1, l2, l3⟩

/-- `MLPEncoder.forward` (src/model.py lines 108-118): reading the
`featureless` attribute fails with `AttributeError` when it was never set;
otherwise the input (embedding rows gathered by `node_ids`, or `batch.x`) is
passed through `linear1`/relu, dropout (mode-respecting, line 113),
`linear2`/relu, dropout, `linear3`/relu. -/
def MLPEncoder.forward {B nN din h : ℕ} (m : MLPEncoder nN din h)
    (training : Bool) (batch : DataBatch B nN din)
    (mask1 mask2 : Fin B → Fin h → Bool) :
    Except PyError (Fin B → Fin h → ℝ) :=
  let body : (Fin B → Fin din → ℝ) → Fin B → Fin h → ℝ := fun x0 =>
    let z1 := fun b => dropout m.p training (mask1 b)
      (fun i => relu (applyLinear m.linear1 (x0 b) i))
    let z2 := fun b => dropout m.p training (mask2 b)
      (fun i => relu (applyLinear m.linear2 (z1 b) i))
    fun b i => relu (applyLinear m.linear3 (z2 b) i)
  match m.featureless with
  | none => .error .attributeError
  | some fl =>
      if fl then
        match m.node_embeddings with
        | none => .error .attributeError
        | some emb => .ok (body (fun b => emb (batch.node_ids b)))
      else
        match batch.x with
        | none => .error .typeError
        | some x0 => .ok (body x0)

/-- C10.  `MLPEncoder.init` sets the `featureless` attribute exactly when the
construction data has no feature matrix; and every forward pass of an encoder
constructed from data that does supply features fails with the
attribute-lookup error, before producing any output — the non-featureless
branch of `forward` is unreachable. -/
theorem mlpEncoder_featureless_unreachable {B B2 nN din h : ℕ} (p : ℝ)
    (data : DataBatch B nN din) (embInit : Fin nN → Fin din → ℝ)
    (l1 : LinearLayer din h) (l2 l3 : LinearLayer h h) :
    ((MLPEncoder.init p data embInit l1 l2 l3).featureless = some true ↔
      data.x = none) ∧
    (data.x ≠ none → ∀ (training : Bool) (batch : DataBatch B2 nN din)
      (mask1 mask2 : Fin B2 → Fin h → Bool),
      MLPEncoder.forward (MLPEncoder.init p data embInit l1 l2 l3) training
        batch mask1 mask2 = Except.error PyError.attributeError) := by
  obtain ⟨x, ids⟩ := data
  cases x with
  | none => exact ⟨by simp [MLPEncoder.init], fun hx => absurd rfl hx⟩
  | some x0 =>
      refine ⟨by simp [MLPEncoder.init], fun _ training batch mask1 mask2 => ?_⟩
      simp [MLPEncoder.init, MLPEncoder.forward]

/-- A concrete `1 × 1` batch that does supply a feature matrix. -/
def dataWithFeatures : DataBatch 1 1 1 :=
  ⟨some (fun _ _ => 1), fun _ => 0⟩

/-- A concrete `1 × 1` identity linear layer. -/
def oneLayer : LinearLayer 1 1 := ⟨fun _ _ => 1, fun _ => 0⟩

/-- C10, witness: `mlpEncoder_featureless_unreachable` applied to the
concrete featured batch, discharging its `data.x ≠ none` hypothesis there. -/
theorem mlpEncoder_featureless_unreachable_witness :
    MLPEncoder.forward
      (MLPEncoder.init (1 / 2) dataWithFeatures (fun _ _ => 1) oneLayer
        oneLayer oneLayer) false dataWithFeatures (fun _ _ => true)
      (fun _ _ => true) = Except.error PyError.attributeError :=
  (mlpEncoder_featureless_unreachable (1 / 2) dataWithFeatures (fun _ _ => 1)
      oneLayer oneLayer oneLayer).2
    (by simp [dataWithFeatures]) false dataWithFeatures (fun _ _ => true)
    (fun _ _ => true)

end

end KnowledgeGAE
